import Mathlib

/-!
Verification of `desktop_video_compress.py` (repository
matthewpick/desktop-video-compress) against its natural-language
specification.

The development is a shallow embedding of the program's core:

* Python strings are `List Char` (`PyStr`); `pathlib` stem/suffix
  semantics are reproduced from CPython's `PurePath.stem` /
  `PurePath.suffix` (split at the last dot of the final component,
  provided that dot is neither the first nor the last character).
* The filesystem is a finite map from paths to byte sizes together with
  a trash area; the external HandBrake process and the `send2trash`
  call are modelled by explicit behaviour parameters, since their
  outcomes are decided outside the program.
* Side effects that the claims talk about (log lines, desktop
  notifications, the subprocess invocation, the trash-move attempt) are
  reified as an event trace returned by each embedded function.
* The `watchdog` handler's shared `processing` set is modelled both
  sequentially (`on_created`) and, for the concurrency claim, as a
  small interleaving machine over the atomic steps of two concurrent
  `on_created` executions for the same path.
-/

namespace DVC

/-- Python strings, modelled as lists of characters. -/
abbrev PyStr := List Char

/-- Python `str.lower()` applied characterwise (the program only lowers
filename extensions, which are ASCII). -/
def toLowerStr (s : PyStr) : PyStr := s.map Char.toLower

/-- `SUPPORTED_VIDEO_EXTENSIONS` (desktop_video_compress.py line 44). -/
def SUPPORTED_VIDEO_EXTENSIONS : List PyStr :=
  [".mp4".toList, ".m4v".toList, ".mov".toList, ".avi".toList,
   ".mkv".toList, ".webm".toList, ".flv".toList, ".wmv".toList]

/-- The artifact-marker literal `_compressed` (lines 237, 245, 350). -/
def compressedMarker : PyStr := "_compressed".toList

/-- True when the string contains no `.` character. -/
def dotFree (s : PyStr) : Bool := s.all (fun c => c != '.')

/-- Split a string at its last dot: `splitLastDot s = some (u, v)` exactly
when `s = u ++ '.' :: v` with `v` dot-free; `none` when `s` has no dot.
This models `str.rfind` of a dot as used by `pathlib`. -/
def splitLastDot : PyStr → Option (PyStr × PyStr)
  | [] => none
  | c :: rest =>
    match splitLastDot rest with
    | some (u, v) => some (c :: u, v)
    | none => if c = '.' then some ([], rest) else none

/-- `pathlib.PurePath.suffix` of a file name: the part from the last dot
(inclusive), provided that dot is neither the first nor the last
character of the name; otherwise the empty string. -/
def nameSuffix (name : PyStr) : PyStr :=
  match splitLastDot name with
  | some (u, v) => if u ≠ [] ∧ v ≠ [] then '.' :: v else []
  | none => []

/-- `pathlib.PurePath.stem` of a file name: the name with `nameSuffix`
removed. -/
def nameStem (name : PyStr) : PyStr :=
  match splitLastDot name with
  | some (u, v) => if u ≠ [] ∧ v ≠ [] then u else name
  | none => name

/-- A filesystem path: the directory part and the final component.  Only
the final component matters to the program's stem/suffix logic; the
parent is carried along because `compress_video` builds the output path
in the same directory (line 237). -/
structure FPath where
  parent : PyStr
  name : PyStr
deriving DecidableEq

/-- `Path.suffix` (pathlib). -/
def FPath.suffix (p : FPath) : PyStr := nameSuffix p.name

/-- `Path.stem` (pathlib). -/
def FPath.stem (p : FPath) : PyStr := nameStem p.name

/-- The derived artifact path (line 237):
`input_path.parent / (input_path.stem + "_compressed" + input_path.suffix)`. -/
def artifactPath (p : FPath) : FPath :=
  { parent := p.parent, name := p.stem ++ compressedMarker ++ p.suffix }

/-- `strHasPref pat s` holds when `pat` is a leading segment of `s`;
building block for the Python substring test. -/
def strHasPref : PyStr → PyStr → Bool
  | [], _ => true
  | _ :: _, [] => false
  | a :: pa, b :: sb => a == b && strHasPref pa sb

/-- Python's `pat in s` substring test: some leading position of `s`
starts with `pat`. -/
def containsSub : PyStr → PyStr → Bool
  | [], pat => strHasPref pat []
  | c :: rest, pat => strHasPref pat (c :: rest) || containsSub rest pat

/-- The spec's classifier (spec section 4.1), assembled from the two
checks the code performs: the extension gate of `on_created` (line 318)
and the `_compressed`-stem gate of `compress_video` (line 245). -/
inductive Classification
  | Eligible
  | NotAVideo
  | AlreadyArtifact
deriving DecidableEq

/-- `classify(path)`: `NotAVideo` when the lowercased suffix is not in
`SUPPORTED_VIDEO_EXTENSIONS` (line 318); `AlreadyArtifact` when the stem
contains `_compressed` (line 245); `Eligible` otherwise. -/
def classify (p : FPath) : Classification :=
  if toLowerStr p.suffix ∈ SUPPORTED_VIDEO_EXTENSIONS then
    if containsSub p.stem compressedMarker then Classification.AlreadyArtifact
    else Classification.Eligible
  else Classification.NotAVideo

theorem strHasPref_append (pat b : PyStr) : strHasPref pat (pat ++ b) = true := by
  induction pat with
  | nil => rfl
  | cons a pa ih => simp [strHasPref, ih]

theorem containsSub_nilpat (s : PyStr) : containsSub s [] = true := by
  induction s with
  | nil => rfl
  | cons c rest ih => simp [containsSub, strHasPref]

theorem containsSub_append_mid (u pat b : PyStr) :
    containsSub (u ++ pat ++ b) pat = true := by
  induction u with
  | nil =>
    cases pat with
    | nil => simpa using containsSub_nilpat b
    | cons c pc =>
      simp only [List.nil_append, List.cons_append, containsSub]
      have h := strHasPref_append (c :: pc) b
      simp only [List.cons_append] at h
      simp [h]
  | cons c cu ih =>
    simp only [List.cons_append, containsSub, Bool.or_eq_true]
    exact Or.inr (by simpa using ih)

theorem containsSub_append_right (u pat : PyStr) :
    containsSub (u ++ pat) pat = true := by
  have h := containsSub_append_mid u pat []
  simpa using h

theorem splitLastDot_eq_none_of_dotFree (s : PyStr) (h : dotFree s = true) :
    splitLastDot s = none := by
  induction s with
  | nil => rfl
  | cons c rest ih =>
    simp only [dotFree, List.all_cons, Bool.and_eq_true, bne_iff_ne] at h
    have hr := ih (by simpa [dotFree] using h.2)
    simp [splitLastDot, hr, h.1]

theorem dotFree_of_splitLastDot_none (s : PyStr) (h : splitLastDot s = none) :
    dotFree s = true := by
  induction s with
  | nil => rfl
  | cons c rest ih =>
    simp only [splitLastDot] at h
    cases hr : splitLastDot rest with
    | some uv => rw [hr] at h; cases h
    | none =>
      rw [hr] at h
      by_cases hc : c = '.'
      · simp [hc] at h
      · simp [dotFree, List.all_cons, hc]
        simpa [dotFree] using ih hr

theorem splitLastDot_append_dot (v : PyStr) (hv : dotFree v = true) (a : PyStr) :
    splitLastDot (a ++ '.' :: v) = some (a, v) := by
  induction a with
  | nil =>
    simp [splitLastDot, splitLastDot_eq_none_of_dotFree v hv]
  | cons c a' ih =>
    simp [splitLastDot, ih]

theorem splitLastDot_decomp (s : PyStr) :
    ∀ u v, splitLastDot s = some (u, v) → s = u ++ '.' :: v ∧ dotFree v = true := by
  induction s with
  | nil => intro u v h; cases h
  | cons c rest ih =>
    intro u v h
    simp only [splitLastDot] at h
    cases hr : splitLastDot rest with
    | some uv =>
      rw [hr] at h
      cases uv with
      | mk u0 v0 =>
        simp only [Option.some.injEq, Prod.mk.injEq] at h
        obtain ⟨hu, hv⟩ := h
        obtain ⟨hrest, hdf⟩ := ih u0 v0 (by rw [hr])
        subst hu; subst hv
        constructor
        · simp [hrest]
        · exact hdf
    | none =>
      rw [hr] at h
      by_cases hc : c = '.'
      · rw [if_pos hc] at h
        cases h
        exact ⟨by simp [hc], dotFree_of_splitLastDot_none rest hr⟩
      · simp [hc] at h

/-- Decomposition of stem/suffix for a path with a nonempty suffix. -/
theorem stem_suffix_decomp (p : FPath) (h : p.suffix ≠ []) :
    ∃ u v, splitLastDot p.name = some (u, v) ∧ u ≠ [] ∧ v ≠ [] ∧
      dotFree v = true ∧ p.stem = u ∧ p.suffix = '.' :: v ∧
      p.name = u ++ '.' :: v := by
  unfold FPath.suffix nameSuffix at h
  cases hs : splitLastDot p.name with
  | none => rw [hs] at h; exact absurd rfl h
  | some uv =>
    obtain ⟨u0, v0⟩ := uv
    rw [hs] at h
    simp only [] at h
    by_cases hc : u0 ≠ [] ∧ v0 ≠ []
    · obtain ⟨hname, hdf⟩ := splitLastDot_decomp p.name u0 v0 hs
      refine ⟨u0, v0, rfl, hc.1, hc.2, hdf, ?_, ?_, hname⟩
      · unfold FPath.stem nameStem
        rw [hs]
        simp only [if_pos hc]
      · unfold FPath.suffix nameSuffix
        rw [hs]
        simp only [if_pos hc]
    · rw [if_neg hc] at h
      exact absurd rfl h

/-- The lengths of stem and suffix always add up to the name's length. -/
theorem stem_length_add_suffix_length (p : FPath) :
    p.stem.length + p.suffix.length = p.name.length := by
  unfold FPath.stem FPath.suffix nameStem nameSuffix
  cases hs : splitLastDot p.name with
  | none => simp
  | some uv =>
    obtain ⟨u0, v0⟩ := uv
    obtain ⟨hname, _⟩ := splitLastDot_decomp p.name u0 v0 hs
    simp only []
    by_cases hc : u0 ≠ [] ∧ v0 ≠ []
    · rw [if_pos hc, if_pos hc, hname]
      simp
    · rw [if_neg hc, if_neg hc]
      simp

/-- The artifact name is exactly eleven characters (`_compressed`) longer
than the source name. -/
theorem artifactPath_name_length (p : FPath) :
    (artifactPath p).name.length = p.name.length + compressedMarker.length := by
  have h := stem_length_add_suffix_length p
  simp only [artifactPath, List.length_append]
  omega

/-- The derived artifact path is never the source path itself. -/
theorem artifactPath_ne (p : FPath) : artifactPath p ≠ p := by
  intro h
  have hlen : (artifactPath p).name.length = p.name.length := by rw [h]
  rw [artifactPath_name_length] at hlen
  have hm : compressedMarker.length = 11 := by decide
  omega

/-- The filesystem: live files (path and byte size) plus the reversible
trash area.  `send2trash` moves an entry from `files` to `trash`; nothing
in the program deletes an entry outright. -/
structure FS where
  files : List (FPath × Nat)
  trash : List (FPath × Nat)
deriving DecidableEq

/-- `Path.exists()`. -/
def FS.fexists (fs : FS) (p : FPath) : Bool := fs.files.any (fun e => e.1 == p)

/-- `Path.stat().st_size` (0 when the file is absent; the program only
stats files it has just checked or created). -/
def FS.fileSize (fs : FS) (p : FPath) : Nat :=
  match fs.files.find? (fun e => e.1 == p) with
  | some e => e.2
  | none => 0

/-- A new file coming into existence (the external tool writing its
output). -/
def FS.createFile (fs : FS) (p : FPath) (sz : Nat) : FS :=
  { fs with files := (p, sz) :: fs.files }

/-- `send2trash`: move the file's entries from the live area to trash
(reversible; never a permanent delete). -/
def FS.sendToTrash (fs : FS) (p : FPath) : FS :=
  { files := fs.files.filter (fun e => !(e.1 == p)),
    trash := fs.files.filter (fun e => e.1 == p) ++ fs.trash }

/-- Tags for the log lines the program writes (lines 233, 241, 246, 249,
282, 291, 296, 299, 199, 205, 211, 220, 223, 287, 289). -/
inductive LogKind
  | fileNotFound
  | artifactExists
  | skipCompressed
  | startCompression
  | compressComplete
  | compressFailed
  | compressTimeout
  | compressErrorCaught
  | trashNotFound
  | trashMoved
  | trashPermission
  | trashOtherError
  | movedOriginal
  | moveFailed
deriving DecidableEq

/-- Python logging levels used by the program. -/
inductive LogLevel
  | info
  | warning
  | error
deriving DecidableEq

/-- Tags for the desktop notifications the program sends (lines 250, 283,
293, 297, 300, 215). -/
inductive NotifyKind
  | startCompression
  | complete
  | compressFailed
  | compressTimeout
  | compressErrorCaught
  | permissionError
deriving DecidableEq

/-- Observable side effects of one pipeline run, in order. -/
inductive Event
  | log (lvl : LogLevel) (k : LogKind)
  | notify (k : NotifyKind)
  | transcodeRun (inp outp : FPath)
  | trashAttempt (p : FPath)
deriving DecidableEq

/-- Recognizer for notification events. -/
def isNotify : Event → Bool
  | Event.notify _ => true
  | _ => false

/-- Recognizer for the subprocess (HandBrake) invocation event. -/
def isTranscodeRun : Event → Bool
  | Event.transcodeRun _ _ => true
  | _ => false

/-- Recognizer for the `send2trash` call event. -/
def isTrashAttempt : Event → Bool
  | Event.trashAttempt _ => true
  | _ => false

/-- Recognizer for error-level log events. -/
def isErrorLog : Event → Bool
  | Event.log LogLevel.error _ => true
  | _ => false

/-- How the `send2trash` call behaves when it is actually made; decided by
the host system, so a parameter of the model (lines 204-224). -/
inductive TrashBehavior
  | ok
  | osErrorPermission
  | osErrorOther
  | otherError
deriving DecidableEq

/-- `move_to_trash(file_path)` (lines 187-224).  Returns the new
filesystem, the boolean result of the Python function, and the event
trace.  When the file does not exist the function logs a warning and
returns False without calling `send2trash` (lines 198-200).  A
permission-classified `OSError` produces error logs with remediation
guidance and a dedicated notification (lines 208-218); any other failure
is logged without a notification (lines 219-224). -/
def move_to_trash (fs : FS) (p : FPath) (tb : TrashBehavior) :
    FS × Bool × List Event :=
  if fs.fexists p then
    match tb with
    | TrashBehavior.ok =>
        (fs.sendToTrash p, true,
         [Event.trashAttempt p, Event.log LogLevel.info LogKind.trashMoved])
    | TrashBehavior.osErrorPermission =>
        (fs, false,
         [Event.trashAttempt p, Event.log LogLevel.error LogKind.trashPermission,
          Event.notify NotifyKind.permissionError])
    | TrashBehavior.osErrorOther =>
        (fs, false,
         [Event.trashAttempt p, Event.log LogLevel.error LogKind.trashOtherError])
    | TrashBehavior.otherError =>
        (fs, false,
         [Event.trashAttempt p, Event.log LogLevel.error LogKind.trashOtherError])
  else (fs, false, [Event.log LogLevel.warning LogKind.trashNotFound])

/-- Outcome of the external `subprocess.run` of HandBrake: either the
process exits with a return code (having written the output file at the
artifact path), or the 3600-second timeout fires (possibly leaving a
partial output file behind).  Decided by the external tool, so a
parameter of the model. -/
inductive ToolResult
  | exits (returncode : Nat) (artifactSize : Nat)
  | timeout (leftoverArtifact : Option Nat)
deriving DecidableEq

/-- The external tool's effect on the filesystem. -/
def toolEffect (fs : FS) (outp : FPath) (t : ToolResult) : FS :=
  match t with
  | ToolResult.exits _ sz => fs.createFile outp sz
  | ToolResult.timeout (some sz) => fs.createFile outp sz
  | ToolResult.timeout none => fs

/-- The savings computation of lines 277-279:
`((original - compressed) / original) * 100` over sizes in megabytes.
Python evaluates it in floats and raises `ZeroDivisionError` exactly when
the divisor `original_size = st_size / (1024*1024)` is zero, i.e. exactly
when the original file has size 0; `none` models that raise. -/
def savingsPercent (origBytes artBytes : Nat) : Option ℚ :=
  let o : ℚ := (origBytes : ℚ) / (1024 * 1024)
  let c : ℚ := (artBytes : ℚ) / (1024 * 1024)
  if o = 0 then none else some ((o - c) / o * 100)

/-- The HandBrake preset literal hardcoded at line 262. -/
def HANDBRAKE_PRESET : PyStr := "Fast 2160p60 4K HEVC".toList

/-- The `cmd` list built at lines 258-266. -/
def handbrakeCmd (hb inp outp : PyStr) : List PyStr :=
  [hb, "-i".toList, inp, "-o".toList, outp,
   "--preset".toList, HANDBRAKE_PRESET,
   "--optimize".toList, "--encoder".toList, "x265".toList,
   "--quality".toList, "22".toList]

/-- The output-format-to-preset mapping that the repository's own test
suite (src/test_desktop_video_compress.py lines 14, 113-123, 134-137)
imports from the main module and asserts: `1080P` maps to
`Fast 1080p30` and `4K` maps to `Fast 2160p60`.  The main module under
src/ defines no such mapping. -/
def OUTPUT_FORMAT_PRESETS : List (PyStr × PyStr) :=
  [("1080P".toList, "Fast 1080p30".toList),
   ("4K".toList, "Fast 2160p60".toList)]

/-- `compress_video(input_path)` (lines 227-300).  The result is the new
filesystem and the event trace.  Branch by branch:
vanished source, line 232; artifact already exists, line 240; stem
already carries the marker, line 245; then the start log/notification
(lines 249-253), the bounded subprocess run (lines 255-273), and the
interpretation of its outcome (lines 275-300), where a zero-byte source
makes the savings computation raise and fall into the generic
`except Exception` handler (lines 298-300) before `move_to_trash` is
reached. -/
def compress_video (fs : FS) (inp : FPath) (tool : ToolResult)
    (tb : TrashBehavior) : FS × List Event :=
  if fs.fexists inp then
    if fs.fexists (artifactPath inp) then
      (fs, [Event.log LogLevel.info LogKind.artifactExists])
    else if containsSub inp.stem compressedMarker then
      (fs, [Event.log LogLevel.info LogKind.skipCompressed])
    else
      let pre : List Event :=
        [Event.log LogLevel.info LogKind.startCompression,
         Event.notify NotifyKind.startCompression]
      let fs1 := toolEffect fs (artifactPath inp) tool
      let run : Event := Event.transcodeRun inp (artifactPath inp)
      match tool with
      | ToolResult.timeout _ =>
          (fs1, pre ++ [run, Event.log LogLevel.error LogKind.compressTimeout,
                        Event.notify NotifyKind.compressTimeout])
      | ToolResult.exits rc _ =>
          if rc = 0 then
            match savingsPercent (fs1.fileSize inp)
                (fs1.fileSize (artifactPath inp)) with
            | none =>
                (fs1, pre ++ [run,
                  Event.log LogLevel.error LogKind.compressErrorCaught,
                  Event.notify NotifyKind.compressErrorCaught])
            | some _ =>
                let r := move_to_trash fs1 inp tb
                (r.1, pre ++ [run,
                  Event.log LogLevel.info LogKind.compressComplete,
                  Event.notify NotifyKind.complete] ++ r.2.2 ++
                  (if r.2.1 then [Event.log LogLevel.info LogKind.movedOriginal]
                   else [Event.log LogLevel.warning LogKind.moveFailed]))
          else
            (fs1, pre ++ [run, Event.log LogLevel.error LogKind.compressFailed,
                          Event.notify NotifyKind.compressFailed])
  else (fs, [Event.log LogLevel.warning LogKind.fileNotFound])

/-- Python `set.add`. -/
def setAdd (proc : List FPath) (p : FPath) : List FPath :=
  if p ∈ proc then proc else p :: proc

/-- Python `set.discard`. -/
def setDiscard (proc : List FPath) (p : FPath) : List FPath :=
  proc.filter (fun q => !(q == p))

/-- `DesktopVideoHandler.on_created` (lines 310-335), sequential view:
directory events are dropped (line 312), non-video suffixes are dropped
(line 318), a path already in `self.processing` is dropped (line 322);
otherwise the handler sleeps two seconds (line 326), adds the path to the
set (line 329), runs `compress_video` (line 332) and removes the path in
a `finally` block (line 335). -/
def on_created (proc : List FPath) (fs : FS) (isDir : Bool) (p : FPath)
    (tool : ToolResult) (tb : TrashBehavior) :
    List FPath × FS × List Event :=
  if isDir then (proc, fs, [])
  else if toLowerStr p.suffix ∈ SUPPORTED_VIDEO_EXTENSIONS then
    if p ∈ proc then (proc, fs, [])
    else
      let proc1 := setAdd proc p
      let r := compress_video fs p tool tb
      (setDiscard proc1 p, r.1, r.2)
  else (proc, fs, [])

/-- Program counter for one thread delivering a creation notification for
a fixed eligible, freshly written path `p` (source exists, stem without
the marker).  Atomic steps of `on_created` (lines 310-335) and the
`compress_video` call it makes:
`start`: the suffix test and the `p in self.processing` membership test
(lines 318-322), after which the thread enters `time.sleep(2)` (line 326) —
or drops the event when membership was observed;
`slept`: the sleep is over and `self.processing.add` runs (line 329);
`added`: the existence and artifact checks of `compress_video`
(lines 232-247);
`preOk`: `subprocess.run` of HandBrake begins (line 268);
`invoked`: the subprocess completes with exit code 0, having written the
artifact file;
`finishing`: the `finally` block removes the path (line 335);
`done`: the handler returned. -/
inductive TPc
  | start
  | slept
  | added
  | preOk
  | invoked
  | finishing
  | done
deriving DecidableEq

/-- Shared state of two concurrent creation notifications for the same
path: `mem` is membership of the path in `self.processing`, `artifact`
whether the artifact file exists yet, `cnt` the number of HandBrake
invocations so far. -/
structure RaceState where
  mem : Bool
  artifact : Bool
  cnt : Nat
  pc1 : TPc
  pc2 : TPc
deriving DecidableEq

/-- One atomic step of one thread: given its pc and the shared `mem` and
`artifact` flags, the new pc, the new flags, and how many transcode
invocations the step performs. -/
def stepThread (pc : TPc) (mem art : Bool) : TPc × Bool × Bool × Nat :=
  match pc with
  | TPc.start => (if mem then TPc.done else TPc.slept, mem, art, 0)
  | TPc.slept => (TPc.added, true, art, 0)
  | TPc.added => (if art then TPc.finishing else TPc.preOk, mem, art, 0)
  | TPc.preOk => (TPc.invoked, mem, art, 1)
  | TPc.invoked => (TPc.finishing, mem, true, 0)
  | TPc.finishing => (TPc.done, false, art, 0)
  | TPc.done => (TPc.done, mem, art, 0)

/-- Scheduler step: `true` steps thread 1, `false` steps thread 2. -/
def raceStep (s : RaceState) (t : Bool) : RaceState :=
  match t with
  | true =>
    let r := stepThread s.pc1 s.mem s.artifact
    { s with pc1 := r.1, mem := r.2.1, artifact := r.2.2.1,
             cnt := s.cnt + r.2.2.2 }
  | false =>
    let r := stepThread s.pc2 s.mem s.artifact
    { s with pc2 := r.1, mem := r.2.1, artifact := r.2.2.1,
             cnt := s.cnt + r.2.2.2 }

/-- Run a schedule from a state. -/
def raceRun (sched : List Bool) (s : RaceState) : RaceState :=
  match sched with
  | [] => s
  | t :: ts => raceRun ts (raceStep s t)

/-- Both notifications just delivered, path not yet registered, artifact
not yet produced. -/
def raceInit : RaceState :=
  { mem := false, artifact := false, cnt := 0, pc1 := TPc.start, pc2 := TPc.start }

/-- Upper bound a thread can have contributed to `cnt`, by pc. -/
def pcContrib : TPc → Nat
  | TPc.invoked => 1
  | TPc.finishing => 1
  | TPc.done => 1
  | _ => 0

theorem pcContrib_le_one (pc : TPc) : pcContrib pc ≤ 1 := by
  cases pc <;> simp [pcContrib]

theorem raceStep_invariant (s : RaceState) (t : Bool)
    (h : s.cnt ≤ pcContrib s.pc1 + pcContrib s.pc2) :
    (raceStep s t).cnt ≤
      pcContrib (raceStep s t).pc1 + pcContrib (raceStep s t).pc2 := by
  cases t with
  | true =>
    cases hpc : s.pc1 <;>
      simp only [raceStep, stepThread, hpc, pcContrib] at h ⊢ <;> omega
  | false =>
    cases hpc : s.pc2 <;>
      simp only [raceStep, stepThread, hpc, pcContrib] at h ⊢ <;> omega

theorem raceRun_invariant (sched : List Bool) (s : RaceState)
    (h : s.cnt ≤ pcContrib s.pc1 + pcContrib s.pc2) :
    (raceRun sched s).cnt ≤
      pcContrib (raceRun sched s).pc1 + pcContrib (raceRun sched s).pc2 := by
  induction sched generalizing s with
  | nil => exact h
  | cons t ts ih => exact ih (raceStep s t) (raceStep_invariant s t h)

theorem fexists_createFile_ne (fs : FS) (q p : FPath) (sz : Nat) (h : q ≠ p) :
    (fs.createFile q sz).fexists p = fs.fexists p := by
  simp [FS.createFile, FS.fexists, List.any_cons, h]

theorem fileSize_createFile_ne (fs : FS) (q p : FPath) (sz : Nat) (h : q ≠ p) :
    (fs.createFile q sz).fileSize p = fs.fileSize p := by
  have hb : (((q, sz) : FPath × Nat).1 == p) = false := by
    simp [h]
  simp [FS.createFile, FS.fileSize, List.find?_cons, hb]

theorem fexists_createFile_self (fs : FS) (q : FPath) (sz : Nat) :
    (fs.createFile q sz).fexists q = true := by
  simp [FS.createFile, FS.fexists, List.any_cons]

theorem fileSize_createFile_self (fs : FS) (q : FPath) (sz : Nat) :
    (fs.createFile q sz).fileSize q = sz := by
  have hb : (((q, sz) : FPath × Nat).1 == q) = true := by simp
  simp [FS.createFile, FS.fileSize, List.find?_cons, hb]

theorem toolEffect_fexists_ne (fs : FS) (outp p : FPath) (t : ToolResult)
    (h : outp ≠ p) : (toolEffect fs outp t).fexists p = fs.fexists p := by
  cases t with
  | exits rc sz => simpa [toolEffect] using fexists_createFile_ne fs outp p sz h
  | timeout lo =>
    cases lo with
    | none => rfl
    | some sz => simpa [toolEffect] using fexists_createFile_ne fs outp p sz h

theorem toolEffect_fileSize_ne (fs : FS) (outp p : FPath) (t : ToolResult)
    (h : outp ≠ p) : (toolEffect fs outp t).fileSize p = fs.fileSize p := by
  cases t with
  | exits rc sz => simpa [toolEffect] using fileSize_createFile_ne fs outp p sz h
  | timeout lo =>
    cases lo with
    | none => rfl
    | some sz => simpa [toolEffect] using fileSize_createFile_ne fs outp p sz h

theorem savingsPercent_none_iff (origBytes artBytes : Nat) :
    savingsPercent origBytes artBytes = none ↔ origBytes = 0 := by
  unfold savingsPercent
  by_cases h : ((origBytes : ℚ) / (1024 * 1024) = 0)
  · rw [if_pos h]
    simp only [true_iff]
    have h2 : (origBytes : ℚ) = 0 := by
      field_simp at h
      exact_mod_cast h
    exact_mod_cast h2
  · rw [if_neg h]
    constructor
    · intro h0; cases h0
    · intro h0
      exfalso
      apply h
      rw [h0]
      norm_num

theorem suffix_ne_nil_of_supported (p : FPath)
    (h : toLowerStr p.suffix ∈ SUPPORTED_VIDEO_EXTENSIONS) : p.suffix ≠ [] := by
  intro he
  rw [he] at h
  simp [toLowerStr, SUPPORTED_VIDEO_EXTENSIONS] at h

/-- A concrete eligible source path, used by witnesses. -/
def clipMov : FPath :=
  { parent := "/Users/demo/Desktop".toList, name := "clip.mov".toList }

/-- A filesystem with no files. -/
def emptyFS : FS := { files := [], trash := [] }

/-- A filesystem holding only the sample source file (7 MiB). -/
def clipFS : FS := { files := [(clipMov, 7340032)], trash := [] }

/-- C2: `classify(p) = Eligible` exactly when the lowercased suffix of
`p` is in the supported extension set and the stem of `p` does not
contain the `_compressed` marker; and every HandBrake invocation made
while handling a creation event is made for a path classified
`Eligible`, so no other path is ever transcoded. -/
theorem classify_eligible_iff_and_gate (p : FPath) :
    (classify p = Classification.Eligible ↔
      toLowerStr p.suffix ∈ SUPPORTED_VIDEO_EXTENSIONS ∧
        containsSub p.stem compressedMarker = false) ∧
    (∀ proc fs d tool tb i o,
      Event.transcodeRun i o ∈ (on_created proc fs d p tool tb).2.2 →
      classify p = Classification.Eligible) := by
  constructor
  · by_cases hm : toLowerStr p.suffix ∈ SUPPORTED_VIDEO_EXTENSIONS
    · by_cases hc : containsSub p.stem compressedMarker = true
      · simp [classify, hm, hc]
      · simp [classify, hm, hc]
    · simp [classify, hm]
  · intro proc fs d tool tb i o hmem
    by_cases hd : d = true
    · simp [on_created, hd] at hmem
    · by_cases hm : toLowerStr p.suffix ∈ SUPPORTED_VIDEO_EXTENSIONS
      · by_cases hp : p ∈ proc
        · simp [on_created, hd, hm, hp] at hmem
        · simp only [on_created, hd, hm, hp, if_true, if_false] at hmem
          by_cases hin : fs.fexists p = true
          · by_cases hout : fs.fexists (artifactPath p) = true
            · simp [compress_video, hin, hout] at hmem
            · by_cases hc : containsSub p.stem compressedMarker = true
              · simp [compress_video, hin, hout, hc] at hmem
              · simp [classify, hm, hc]
          · simp [compress_video, hin] at hmem
      · simp [on_created, hd, hm] at hmem

/-- Witness for C2 at the concrete path `clip.mov`. -/
theorem classify_eligible_iff_and_gate_witness :
    classify clipMov = Classification.Eligible :=
  (classify_eligible_iff_and_gate clipMov).1.mpr (by decide)

/-- C4: the handler's `finally` block removes the path from
`self.processing` on every completion path of the registered handling,
so after `on_created` returns the registry does not contain the path
(for any directory flag, any tool outcome including timeout or failure,
and any trash behaviour). -/
theorem registry_released_on_all_paths (proc : List FPath) (fs : FS) (d : Bool)
    (p : FPath) (tool : ToolResult) (tb : TrashBehavior) (h : p ∉ proc) :
    p ∉ (on_created proc fs d p tool tb).1 := by
  unfold on_created
  by_cases hd : d = true
  · simpa [hd] using h
  · by_cases hm : toLowerStr p.suffix ∈ SUPPORTED_VIDEO_EXTENSIONS
    · by_cases hp : p ∈ proc
      · exact absurd hp h
      · simp [hd, hm, hp, setDiscard, List.mem_filter]
    · simpa [hd, hm] using h

/-- Witness for C4 at the concrete path with a successful tool run. -/
theorem registry_released_on_all_paths_witness :
    clipMov ∉ (on_created [] clipFS false clipMov (ToolResult.exits 0 100)
      TrashBehavior.ok).1 :=
  registry_released_on_all_paths [] clipFS false clipMov
    (ToolResult.exits 0 100) TrashBehavior.ok (by simp)

/-- C6: for every source path (a path satisfying the spec's SourcePath
invariant that its lowercased suffix is in the supported set) the
artifact stem is the source stem followed by `_compressed`, and the
artifact path never classifies `Eligible`, so a produced artifact cannot
re-enter processing. -/
theorem artifact_roundtrip_naming (p : FPath)
    (h : toLowerStr p.suffix ∈ SUPPORTED_VIDEO_EXTENSIONS) :
    (artifactPath p).stem = p.stem ++ compressedMarker ∧
    classify (artifactPath p) ≠ Classification.Eligible := by
  obtain ⟨u, v, hs, hu, hv, hdf, hstem, hsuf, hname⟩ :=
    stem_suffix_decomp p (suffix_ne_nil_of_supported p h)
  have hart : (artifactPath p).name = (u ++ compressedMarker) ++ '.' :: v := by
    show p.stem ++ compressedMarker ++ p.suffix = _
    rw [hstem, hsuf]
  have hsplit : splitLastDot (artifactPath p).name =
      some (u ++ compressedMarker, v) := by
    rw [hart]
    exact splitLastDot_append_dot v hdf (u ++ compressedMarker)
  have hum : u ++ compressedMarker ≠ [] := by
    intro hnil
    have hlen := congrArg List.length hnil
    simp [compressedMarker] at hlen
  have hstem2 : (artifactPath p).stem = u ++ compressedMarker := by
    unfold FPath.stem nameStem
    rw [hsplit]
    simp only []
    rw [if_pos (And.intro hum hv)]
  refine ⟨by rw [hstem2, hstem], ?_⟩
  have hc : containsSub (artifactPath p).stem compressedMarker = true := by
    rw [hstem2]
    exact containsSub_append_right u compressedMarker
  unfold classify
  by_cases hm2 : toLowerStr (artifactPath p).suffix ∈ SUPPORTED_VIDEO_EXTENSIONS
  · rw [if_pos hm2, if_pos hc]
    intro hcl; cases hcl
  · rw [if_neg hm2]
    intro hcl; cases hcl

/-- Witness for C6 at the concrete path `clip.mov`. -/
theorem artifact_roundtrip_naming_witness :
    (artifactPath clipMov).stem = clipMov.stem ++ compressedMarker ∧
    classify (artifactPath clipMov) ≠ Classification.Eligible :=
  artifact_roundtrip_naming clipMov (by decide)

/-- A filesystem where the sample source and its artifact both exist. -/
def clipBothFS : FS :=
  { files := [(clipMov, 7340032), (artifactPath clipMov, 1000000)], trash := [] }

/-- C3: if the derived artifact path already exists, running the pipeline
on the source performs no transcode and no trash move, leaves the
filesystem (both files) unchanged, and only logs the skip at a non-error
level. -/
theorem pipeline_idempotent_artifact_exists (fs : FS) (p : FPath)
    (tool : ToolResult) (tb : TrashBehavior)
    (h : fs.fexists (artifactPath p) = true) :
    (compress_video fs p tool tb).1 = fs ∧
    ((compress_video fs p tool tb).2 =
        [Event.log LogLevel.warning LogKind.fileNotFound] ∨
     (compress_video fs p tool tb).2 =
        [Event.log LogLevel.info LogKind.artifactExists]) ∧
    (compress_video fs p tool tb).2.any isTranscodeRun = false ∧
    (compress_video fs p tool tb).2.any isTrashAttempt = false ∧
    (compress_video fs p tool tb).2.any isNotify = false ∧
    (compress_video fs p tool tb).2.any isErrorLog = false := by
  by_cases hin : fs.fexists p = true
  · simp [compress_video, hin, h, isTranscodeRun, isTrashAttempt, isNotify,
          isErrorLog]
  · simp [compress_video, hin, isTranscodeRun, isTrashAttempt, isNotify,
          isErrorLog]

/-- Witness for C3: artifact already on disk, nothing changes. -/
theorem pipeline_idempotent_artifact_exists_witness :
    (compress_video clipBothFS clipMov (ToolResult.exits 0 100)
      TrashBehavior.ok).1 = clipBothFS :=
  (pipeline_idempotent_artifact_exists clipBothFS clipMov
    (ToolResult.exits 0 100) TrashBehavior.ok (by decide)).1

/-- C5: when the tool outcome is anything other than an exit with code 0
(tool failure with a non-zero exit, or timeout), `move_to_trash` is never
invoked — no `send2trash` attempt appears in the trace — and the original
file's entry (existence and size) is untouched. -/
theorem no_disposal_without_success (fs : FS) (p : FPath) (tool : ToolResult)
    (tb : TrashBehavior) (h : ∀ sz, tool ≠ ToolResult.exits 0 sz) :
    (compress_video fs p tool tb).2.any isTrashAttempt = false ∧
    (compress_video fs p tool tb).1.fexists p = fs.fexists p ∧
    (compress_video fs p tool tb).1.fileSize p = fs.fileSize p := by
  have hne := artifactPath_ne p
  by_cases hin : fs.fexists p = true
  · by_cases hout : fs.fexists (artifactPath p) = true
    · simp [compress_video, hin, hout, isTrashAttempt]
    · by_cases hc : containsSub p.stem compressedMarker = true
      · simp [compress_video, hin, hout, hc, isTrashAttempt]
      · cases tool with
        | timeout lo =>
          simp [compress_video, hin, hout, hc, isTrashAttempt,
                toolEffect_fexists_ne fs (artifactPath p) p
                  (ToolResult.timeout lo) hne,
                toolEffect_fileSize_ne fs (artifactPath p) p
                  (ToolResult.timeout lo) hne]
        | exits rc sz =>
          have hrc : ¬ rc = 0 := by
            intro h0
            exact (h sz) (by rw [h0])
          simp [compress_video, hin, hout, hc, hrc, isTrashAttempt,
                toolEffect_fexists_ne fs (artifactPath p) p
                  (ToolResult.exits rc sz) hne,
                toolEffect_fileSize_ne fs (artifactPath p) p
                  (ToolResult.exits rc sz) hne]
  · simp [compress_video, hin, isTrashAttempt]

/-- Witness for C5: non-zero exit code, no trash attempt. -/
theorem no_disposal_without_success_witness :
    (compress_video clipFS clipMov (ToolResult.exits 1 100)
      TrashBehavior.ok).2.any isTrashAttempt = false :=
  (no_disposal_without_success clipFS clipMov (ToolResult.exits 1 100)
    TrashBehavior.ok (by simp)).1

/-- C1 counterexample: an interleaving of two concurrent creation
notifications for the same eligible path in which BOTH pass the
membership test of line 322 while neither has yet executed the
`self.processing.add` of line 329 (both are inside the two-second
`time.sleep` of line 326), after which both reach `subprocess.run`:
two HandBrake invocations for one path.  The membership test and the
insert are separated by the settle delay and are not one atomic
test-and-set, so the claimed never-more-than-one bound fails. -/
theorem duplicate_notifications_double_transcode :
    (raceRun [true, false, true, true, true, false, false, false]
      raceInit).cnt = 2 := by
  decide

/-- C1 amended: each notification invokes the transcoder at most once
(so any two concurrent duplicates yield at most two invocations, not an
unbounded number); and when the duplicate's membership test runs after
the first handling registered the path — in particular when the
notifications are handled one after the other, or when the second test
happens while the first is registered — exactly one transcode occurs.
The at-most-one-per-path guarantee of the original claim holds only in
those orderings, not for duplicates that both pass the test inside the
settle window. -/
theorem transcode_count_bound_and_dedup :
    (∀ sched : List Bool, (raceRun sched raceInit).cnt ≤ 2) ∧
    (raceRun [true, true, true, true, true, true,
              false, false, false, false] raceInit).cnt = 1 ∧
    (raceRun [true, true, false, true, true, true, true] raceInit).cnt = 1 := by
  refine ⟨?_, by decide, by decide⟩
  intro sched
  have h := raceRun_invariant sched raceInit (by decide)
  have h1 := pcContrib_le_one (raceRun sched raceInit).pc1
  have h2 := pcContrib_le_one (raceRun sched raceInit).pc2
  omega

/-- Witness for the amended C1 bound at the empty schedule. -/
theorem transcode_count_bound_and_dedup_witness :
    (raceRun [] raceInit).cnt ≤ 2 :=
  transcode_count_bound_and_dedup.1 []

/-- C7: the HandBrake invocation built by `compress_video` always passes
the hardcoded preset literal `Fast 2160p60 4K HEVC` (line 262),
regardless of input; and that literal is not one of the presets of the
output-format mapping which the repository's own test suite requires the
main module to define and select from.  The main module defines no
`VIDEO_OUTPUT_FORMAT`, `HANDBRAKE_PRESET` variable or
`OUTPUT_FORMAT_PRESETS` mapping at all, so importing the test module
fails and no startup validation of an output-format setting exists. -/
theorem preset_hardcoded_not_from_mapping :
    (∀ hb inp outp : PyStr,
      (handbrakeCmd hb inp outp)[6]? = some HANDBRAKE_PRESET) ∧
    OUTPUT_FORMAT_PRESETS.all
      (fun e => !(e.2 == HANDBRAKE_PRESET)) = true := by
  constructor
  · intro hb inp outp
    rfl
  · decide

/-- Witness for C7 at concrete command arguments. -/
theorem preset_hardcoded_not_from_mapping_witness :
    (handbrakeCmd "/usr/local/bin/HandBrakeCLI".toList clipMov.name
      (artifactPath clipMov).name)[6]? = some HANDBRAKE_PRESET :=
  preset_hardcoded_not_from_mapping.1 "/usr/local/bin/HandBrakeCLI".toList
    clipMov.name (artifactPath clipMov).name

/-- C8 counterexample: the source file has vanished before processing —
a per-file recoverable failure the claim covers — and the code only
writes a warning log line (line 233) and returns; no desktop
notification is sent, contradicting the claim that every per-file
recoverable failure notifies the user. -/
theorem vanished_source_not_notified :
    (compress_video emptyFS clipMov (ToolResult.exits 1 0)
      TrashBehavior.ok).2 =
      [Event.log LogLevel.warning LogKind.fileNotFound] ∧
    (compress_video emptyFS clipMov (ToolResult.exits 1 0)
      TrashBehavior.ok).2.any isNotify = false := by
  decide

/-- C8 amended: every per-file recoverable failure is logged, is
contained (the path is always released from the registry and no other
file's entry is affected), but the user is notified only for transcode
tool failure and transcode timeout; the vanished-source and
artifact-already-exists cases are logged without any notification. -/
theorem per_file_failures_logged_notify_policy (fs : FS) (p : FPath)
    (tool : ToolResult) (tb : TrashBehavior) :
    (fs.fexists p = false →
      (compress_video fs p tool tb).2 =
        [Event.log LogLevel.warning LogKind.fileNotFound] ∧
      (compress_video fs p tool tb).2.any isNotify = false) ∧
    (fs.fexists p = true → fs.fexists (artifactPath p) = true →
      (compress_video fs p tool tb).2 =
        [Event.log LogLevel.info LogKind.artifactExists] ∧
      (compress_video fs p tool tb).2.any isNotify = false) ∧
    (∀ rc sz, tool = ToolResult.exits rc sz → rc ≠ 0 →
      fs.fexists p = true → fs.fexists (artifactPath p) = false →
      containsSub p.stem compressedMarker = false →
      Event.log LogLevel.error LogKind.compressFailed ∈
        (compress_video fs p tool tb).2 ∧
      Event.notify NotifyKind.compressFailed ∈
        (compress_video fs p tool tb).2) ∧
    (∀ lo, tool = ToolResult.timeout lo →
      fs.fexists p = true → fs.fexists (artifactPath p) = false →
      containsSub p.stem compressedMarker = false →
      Event.log LogLevel.error LogKind.compressTimeout ∈
        (compress_video fs p tool tb).2 ∧
      Event.notify NotifyKind.compressTimeout ∈
        (compress_video fs p tool tb).2) ∧
    (∀ proc, p ∉ proc → p ∉ (on_created proc fs false p tool tb).1) ∧
    ((∀ sz, tool ≠ ToolResult.exits 0 sz) → ∀ q, artifactPath p ≠ q →
      (compress_video fs p tool tb).1.fexists q = fs.fexists q ∧
      (compress_video fs p tool tb).1.fileSize q = fs.fileSize q) := by
  refine ⟨?_, ?_, ?_, ?_, ?_, ?_⟩
  · intro h
    simp [compress_video, h, isNotify]
  · intro h1 h2
    simp [compress_video, h1, h2, isNotify]
  · intro rc sz ht hrc h1 h2 h3
    subst ht
    simp [compress_video, h1, h2, h3, hrc]
  · intro lo ht h1 h2 h3
    subst ht
    simp [compress_video, h1, h2, h3]
  · intro proc hp
    unfold on_created
    by_cases hm : toLowerStr p.suffix ∈ SUPPORTED_VIDEO_EXTENSIONS
    · simp [hm, hp, setDiscard, List.mem_filter]
    · simpa [hm] using hp
  · intro hnotok q hq
    by_cases hin : fs.fexists p = true
    · by_cases hout : fs.fexists (artifactPath p) = true
      · simp [compress_video, hin, hout]
      · by_cases hc : containsSub p.stem compressedMarker = true
        · simp [compress_video, hin, hout, hc]
        · cases tool with
          | timeout lo =>
            simp [compress_video, hin, hout, hc,
                  toolEffect_fexists_ne fs (artifactPath p) q
                    (ToolResult.timeout lo) hq,
                  toolEffect_fileSize_ne fs (artifactPath p) q
                    (ToolResult.timeout lo) hq]
          | exits rc sz =>
            have hrc : ¬ rc = 0 := by
              intro h0
              exact (hnotok sz) (by rw [h0])
            simp [compress_video, hin, hout, hc, hrc,
                  toolEffect_fexists_ne fs (artifactPath p) q
                    (ToolResult.exits rc sz) hq,
                  toolEffect_fileSize_ne fs (artifactPath p) q
                    (ToolResult.exits rc sz) hq]
    · simp [compress_video, hin]

/-- Witness for the amended C8: timeout case is logged and notified. -/
theorem per_file_failures_logged_notify_policy_witness :
    Event.notify NotifyKind.compressTimeout ∈
      (compress_video clipFS clipMov (ToolResult.timeout none)
        TrashBehavior.ok).2 :=
  ((per_file_failures_logged_notify_policy clipFS clipMov
    (ToolResult.timeout none) TrashBehavior.ok).2.2.2.1 none rfl
    (by decide) (by decide) (by decide)).2

/-- C9: `move_to_trash` behaviour, branch by branch.  A missing source
returns the failure result after only a warning log, with no
`send2trash` attempt and no notification (lines 198-200, the spec's
`NotFound`).  A permission-classified `OSError` during the move is
reported distinctly: error logs with remediation guidance and a
dedicated permission notification (lines 208-218, the spec's
`PermissionDenied`).  Every other failure is logged without any
notification (lines 219-224, the spec's `OtherError`).  In every case
no file entry is lost: live files plus trash is a permutation of what
was there before — disposal never deletes permanently. -/
theorem disposal_classification (fs : FS) (p : FPath) (tb : TrashBehavior) :
    (fs.fexists p = false →
      move_to_trash fs p tb =
        (fs, false, [Event.log LogLevel.warning LogKind.trashNotFound])) ∧
    (fs.fexists p = true → tb = TrashBehavior.osErrorPermission →
      (move_to_trash fs p tb).2.2 =
        [Event.trashAttempt p,
         Event.log LogLevel.error LogKind.trashPermission,
         Event.notify NotifyKind.permissionError] ∧
      (move_to_trash fs p tb).1 = fs ∧
      (move_to_trash fs p tb).2.1 = false) ∧
    (fs.fexists p = true →
      (tb = TrashBehavior.osErrorOther ∨ tb = TrashBehavior.otherError) →
      (move_to_trash fs p tb).2.2 =
        [Event.trashAttempt p,
         Event.log LogLevel.error LogKind.trashOtherError] ∧
      (move_to_trash fs p tb).2.2.any isNotify = false ∧
      (move_to_trash fs p tb).2.1 = false) ∧
    List.Perm
      ((move_to_trash fs p tb).1.files ++ (move_to_trash fs p tb).1.trash)
      (fs.files ++ fs.trash) := by
  refine ⟨?_, ?_, ?_, ?_⟩
  · intro h
    simp [move_to_trash, h]
  · intro h ht
    subst ht
    simp [move_to_trash, h]
  · intro h ht
    rcases ht with ht | ht <;> subst ht <;> simp [move_to_trash, h, isNotify]
  · by_cases h : fs.fexists p = true
    · cases tb with
      | ok =>
        simp only [move_to_trash, h, if_true, FS.sendToTrash]
        rw [← List.append_assoc]
        refine List.Perm.append_right fs.trash ?_
        exact List.perm_append_comm.trans
          (List.filter_append_perm (fun e => e.1 == p) fs.files)
      | osErrorPermission => simp [move_to_trash, h]
      | osErrorOther => simp [move_to_trash, h]
      | otherError => simp [move_to_trash, h]
    · simp [move_to_trash, h]

/-- Witness for C9: vanished file and permission branches at concrete
inputs. -/
theorem disposal_classification_witness :
    move_to_trash emptyFS clipMov TrashBehavior.osErrorOther =
      (emptyFS, false, [Event.log LogLevel.warning LogKind.trashNotFound]) :=
  (disposal_classification emptyFS clipMov TrashBehavior.osErrorOther).1
    (by decide)

/-- C10: a zero-byte source whose transcode exits 0.  The savings
computation of line 279 divides by `original_size = 0` and raises
`ZeroDivisionError` (modelled by `savingsPercent ... = none`); the
generic `except Exception` handler of lines 298-300 catches it, so an
error notification is emitted, the completion notification is not, the
original is never moved to trash, and the artifact produced by the
successful transcode remains on disk while the original stays in place. -/
theorem zero_size_success_error_path (fs : FS) (p : FPath) (artSz : Nat)
    (tb : TrashBehavior)
    (h1 : fs.fexists p = true) (h2 : fs.fileSize p = 0)
    (h3 : fs.fexists (artifactPath p) = false)
    (h4 : containsSub p.stem compressedMarker = false) :
    savingsPercent
      ((toolEffect fs (artifactPath p) (ToolResult.exits 0 artSz)).fileSize p)
      ((toolEffect fs (artifactPath p) (ToolResult.exits 0 artSz)).fileSize
        (artifactPath p)) = none ∧
    Event.notify NotifyKind.compressErrorCaught ∈
      (compress_video fs p (ToolResult.exits 0 artSz) tb).2 ∧
    Event.notify NotifyKind.complete ∉
      (compress_video fs p (ToolResult.exits 0 artSz) tb).2 ∧
    (compress_video fs p (ToolResult.exits 0 artSz) tb).2.any
      isTrashAttempt = false ∧
    (compress_video fs p (ToolResult.exits 0 artSz) tb).1.fexists
      (artifactPath p) = true ∧
    (compress_video fs p (ToolResult.exits 0 artSz) tb).1.fexists p = true ∧
    (compress_video fs p (ToolResult.exits 0 artSz) tb).1.fileSize p = 0 := by
  have hne := artifactPath_ne p
  have hsz : (toolEffect fs (artifactPath p)
      (ToolResult.exits 0 artSz)).fileSize p = 0 := by
    rw [toolEffect_fileSize_ne fs (artifactPath p) p
      (ToolResult.exits 0 artSz) hne, h2]
  have hnone : savingsPercent
      ((toolEffect fs (artifactPath p) (ToolResult.exits 0 artSz)).fileSize p)
      ((toolEffect fs (artifactPath p) (ToolResult.exits 0 artSz)).fileSize
        (artifactPath p)) = none :=
    (savingsPercent_none_iff _ _).mpr hsz
  refine ⟨hnone, ?_⟩
  have hex : (toolEffect fs (artifactPath p)
      (ToolResult.exits 0 artSz)).fexists (artifactPath p) = true := by
    simp [toolEffect, fexists_createFile_self]
  have hexp : (toolEffect fs (artifactPath p)
      (ToolResult.exits 0 artSz)).fexists p = true := by
    rw [toolEffect_fexists_ne fs (artifactPath p) p
      (ToolResult.exits 0 artSz) hne]
    exact h1
  have hnone0 : ∀ x, savingsPercent 0 x = none := fun x =>
    (savingsPercent_none_iff 0 x).mpr rfl
  simp [compress_video, h1, h3, h4, hnone0, hex, hexp, hsz, isTrashAttempt,
        isNotify]

/-- A filesystem whose only file is the sample source with size zero. -/
def zeroFS : FS := { files := [(clipMov, 0)], trash := [] }

/-- Witness for C10 at a concrete zero-byte file. -/
theorem zero_size_success_error_path_witness :
    Event.notify NotifyKind.compressErrorCaught ∈
      (compress_video zeroFS clipMov (ToolResult.exits 0 500)
        TrashBehavior.ok).2 :=
  (zero_size_success_error_path zeroFS clipMov 500 TrashBehavior.ok
    (by decide) (by decide) (by decide) (by decide)).2.1
